import Mathlib

/-!
Shallow embedding of the webp-converter-with-s3 batch-conversion engine:
the batch scheduler and per-item pipeline (src/services/convertionService.ts),
the object-store listing model (src/services/s3Service.ts), and the
file-based conversion ledger (src/services/conversionTracker.ts).
Sizes are modelled as naturals (buffer byte lengths) and JavaScript number
arithmetic on ratios as exact rationals; wall-clock fields
(processingTime, processingDuration) are modelled as the constant 0, since
no verified claim depends on elapsed time.
-/

namespace WebpConverter

/-- Status of a per-item conversion, from the ConversionResult union type
"success" | "failed" | "skipped" in src/models (part_003). -/
inductive ConversionStatus where
  | success
  | failed
  | skipped
deriving DecidableEq

/-- S3Object from s3Service.ts: key, size, lastModified, etag. The two
timestamp-like fields are carried as opaque strings; none of the engine's
logic inspects them. -/
structure S3Object where
  key : String
  size : Nat
  lastModified : String
  etag : String
deriving DecidableEq

/-- ConversionResult from src/models (part_003). -/
structure ConversionResult where
  sourceKey : String
  targetKey : String
  originalSize : Nat
  convertedSize : Nat
  compressionRatio : ℚ
  processingTime : Nat
  status : ConversionStatus
  error : Option String
deriving DecidableEq

/-- ConversionReport from src/models (part_003). -/
structure ConversionReport where
  totalImages : Nat
  successful : Nat
  failed : Nat
  skipped : Nat
  totalSizeBefore : Nat
  totalSizeAfter : Nat
  averageCompressionRatio : ℚ
  processingDuration : Nat
  errors : List String
deriving DecidableEq

/-- ConversionRecord from conversionTracker.ts (part_002). -/
structure ConversionRecord where
  sourceKey : String
  targetKey : String
  convertedAt : String
  originalSize : Nat
  convertedSize : Nat
  compressionRatio : ℚ
deriving DecidableEq

/-- Index of the last '.' character, mirroring JavaScript
String.lastIndexOf("."). -/
def lastDotIndex : List Char → Option Nat
  | [] => none
  | c :: cs =>
    match lastDotIndex cs with
    | some i => some (i + 1)
    | none => if c = '.' then some 0 else none

/-- Substring after the last '.', mirroring JavaScript
key.split(".").pop(): the whole key when it has no dot, the (possibly
empty) suffix after the last dot otherwise. -/
def extensionAfterLastDot (key : String) : String :=
  match lastDotIndex key.data with
  | none => key
  | some i => String.mk (key.data.drop (i + 1))

/-- JavaScript String.prototype.startsWith over character lists
(the ListObjectsV2 Prefix filter). -/
def startsWithChars : List Char → List Char → Bool
  | _, [] => true
  | [], _ :: _ => false
  | c :: cs, p :: ps => c == p && startsWithChars cs ps

/-- AWSS3Service.isImageFile (s3Service.ts lines 188-191):
extension := key.split(".").pop()?.toLowerCase(); an empty extension is
falsy in JavaScript, so it yields false; otherwise membership in the
configured supported-extension set decides. -/
def isImageFile (supportedExtensions : List String) (key : String) : Bool :=
  let ext := String.mk ((extensionAfterLastDot key).data.map Char.toLower)
  if ext = "" then false else supportedExtensions.contains ext

/-- AWSS3Service.listImages (s3Service.ts lines 74-123) over a modelled
bucket listing: keeps objects whose key starts with the given listing
filter string (the ListObjectsV2 Prefix parameter), whose Size is truthy
(nonzero), and which pass the isImageFile extension filter. -/
def listImages (bucket : List S3Object) (supportedExtensions : List String)
    (pre : String) : List S3Object :=
  bucket.filter (fun o =>
    startsWithChars o.key.data pre.data && o.size != 0 &&
      isImageFile supportedExtensions o.key)

/-- BatchConversionService.generateTargetKey (convertionService.ts lines
299-309): no dot means append ".webp"; otherwise keep the substring before
the last dot and append ".webp". -/
def generateTargetKey (sourceKey : String) : String :=
  match lastDotIndex sourceKey.data with
  | none => sourceKey ++ ".webp"
  | some i => String.mk (sourceKey.data.take i) ++ ".webp"

/-- BatchConversionService.skipIfExists (convertionService.ts lines
310-331): lists the target bucket with the target key as the listing
filter and reports whether the exact key appears in the filtered result.
The catch branch (listing error yields false) is not modelled because the
modelled listing is total. -/
def skipIfExists (bucket : List S3Object) (supportedExtensions : List String)
    (targetKey : String) : Bool :=
  (listImages bucket supportedExtensions targetKey).any (fun o => o.key == targetKey)

/-- Environment of one processImage run: the target-bucket contents seen by
the skip check, the configured supported formats, and the outcomes of the
four external collaborator calls (download, validate, metadata, encode,
upload), plus the dry-run flag. Except models a thrown error. -/
structure PipelineEnv where
  bucket : List S3Object
  supportedFormats : List String
  download : Except String Nat
  valid : Bool
  metadata : Except String String
  encode : Except String Nat
  upload : Except String Unit
  dryRun : Bool

/-- Observable outcome of one processImage run: the returned
ConversionResult together with the side effects performed — source keys
downloaded, (targetKey, byteLength) pairs uploaded, and every
ConversionRecord handed to the ledger via markAsConverted. The source of
processImage (convertionService.ts lines 207-298) contains no call to any
tracker, so no branch below appends a ledger call. -/
structure PipelineOutcome where
  result : ConversionResult
  downloads : List String
  uploads : List (String × Nat)
  ledgerCalls : List ConversionRecord
deriving DecidableEq

/-- BatchConversionService.processImage (convertionService.ts lines
207-298): skip check, download, validate, metadata, encode (setting
convertedSize and compressionRatio = (originalSize - convertedSize) /
originalSize), then upload unless dry-run; every thrown collaborator error
is caught and becomes a failed result carrying the message. -/
def processImage (env : PipelineEnv) (s3Object : S3Object) : PipelineOutcome :=
  let sourceKey := s3Object.key
  let targetKey := generateTargetKey sourceKey
  let base : ConversionResult :=
    { sourceKey := sourceKey, targetKey := targetKey,
      originalSize := s3Object.size, convertedSize := 0,
      compressionRatio := 0, processingTime := 0,
      status := .failed, error := none }
  if skipIfExists env.bucket env.supportedFormats targetKey then
    { result := { base with status := .skipped },
      downloads := [], uploads := [], ledgerCalls := [] }
  else
    match env.download with
    | .error e =>
      { result := { base with error := some e },
        downloads := [sourceKey], uploads := [], ledgerCalls := [] }
    | .ok _ =>
      if !env.valid then
        { result := { base with error := some "Unsupported or invalid image format" },
          downloads := [sourceKey], uploads := [], ledgerCalls := [] }
      else
        match env.metadata with
        | .error e =>
          { result := { base with error := some e },
            downloads := [sourceKey], uploads := [], ledgerCalls := [] }
        | .ok _ =>
          match env.encode with
          | .error e =>
            { result := { base with error := some e },
              downloads := [sourceKey], uploads := [], ledgerCalls := [] }
          | .ok webpLen =>
            let converted : ConversionResult :=
              { base with
                convertedSize := webpLen,
                compressionRatio :=
                  ((s3Object.size : ℚ) - (webpLen : ℚ)) / (s3Object.size : ℚ) }
            if env.dryRun then
              { result := { converted with status := .success },
                downloads := [sourceKey], uploads := [], ledgerCalls := [] }
            else
              match env.upload with
              | .error e =>
                { result := { converted with error := some e },
                  downloads := [sourceKey], uploads := [], ledgerCalls := [] }
              | .ok _ =>
                { result := { converted with status := .success },
                  downloads := [sourceKey],
                  uploads := [(targetKey, webpLen)], ledgerCalls := [] }

/-- Inner dispatch loop of processConcurrentBatches (convertionService.ts
lines 126-135): while the pending queue is non-empty, shift the next
object, add its key to the processing set and register its pipeline
promise in the in-flight map. The loop condition consults only the pending
queue; no comparison against config.processing.concurrency (or any other
bound) occurs, so every pending object is dispatched before the loop
exits. The returned list is the in-flight key list after the loop. -/
def startPendingTasks : List S3Object → List String → List String
  | [], inFlight => inFlight
  | img :: rest, inFlight => startPendingTasks rest (inFlight ++ [img.key])

/-- Report-folding half of processImageWithTracking (convertionService.ts
lines 152-205): a structured result increments exactly one of
successful/failed/skipped (adding sizes on success and an error line on
failure); a thrown error is caught and counted as failed with an error
line. -/
def processImageWithTracking (report : ConversionReport) (image : S3Object)
    (outcome : Except String ConversionResult) : ConversionReport :=
  match outcome with
  | .ok result =>
    match result.status with
    | .success =>
      { report with
        successful := report.successful + 1,
        totalSizeBefore := report.totalSizeBefore + result.originalSize,
        totalSizeAfter := report.totalSizeAfter + result.convertedSize }
    | .failed =>
      { report with
        failed := report.failed + 1,
        errors := report.errors ++
          (match result.error with
           | some e => [result.sourceKey ++ ": " ++ e]
           | none => []) }
    | .skipped =>
      { report with skipped := report.skipped + 1 }
  | .error msg =>
    { report with
      failed := report.failed + 1,
      errors := report.errors ++ [image.key ++ ": " ++ msg] }

/-- processConcurrentBatches (convertionService.ts lines 117-151) at the
report level: every object of the initialized pending queue is dispatched
exactly once and its tracked outcome folded into the report (the in-flight
bookkeeping does not touch the report). Faithful for input lists with
pairwise-distinct keys, which a bucket listing always produces; duplicate
keys would collide in the in-flight map. -/
def processConcurrentBatches (images : List S3Object)
    (outcome : S3Object → Except String ConversionResult)
    (report : ConversionReport) : ConversionReport :=
  images.foldl (fun rep img => processImageWithTracking rep img (outcome img)) report

/-- Report literal initialized at the top of processAllImages
(convertionService.ts lines 42-52): all counters zero, empty error list. -/
def emptyReport : ConversionReport :=
  { totalImages := 0, successful := 0, failed := 0, skipped := 0,
    totalSizeBefore := 0, totalSizeAfter := 0, averageCompressionRatio := 0,
    processingDuration := 0, errors := [] }

/-- BatchConversionService.processAllImages (convertionService.ts lines
40-116): on a listing failure the catch branch returns the zero report
with the single line "Batch conversion failed: <message>"; on an empty
listing the zero report is returned; otherwise the concurrent batches run
and, when successful > 0 and totalSizeBefore > 0, averageCompressionRatio
is set to (totalSizeBefore - totalSizeAfter) / totalSizeBefore. -/
def processAllImages (listing : Except String (List S3Object))
    (outcome : S3Object → Except String ConversionResult) : ConversionReport :=
  match listing with
  | .error e =>
    { emptyReport with errors := ["Batch conversion failed: " ++ e] }
  | .ok images =>
    if images.length = 0 then emptyReport
    else
      let report := processConcurrentBatches images outcome emptyReport
      if 0 < report.successful ∧ 0 < report.totalSizeBefore then
        { report with
          averageCompressionRatio :=
            ((report.totalSizeBefore : ℚ) - (report.totalSizeAfter : ℚ)) /
              (report.totalSizeBefore : ℚ) }
      else report

/-- One line of the append-only journal file (conversionTracker.ts,
part_002): a line that JSON-parses to a ConversionRecord, or a malformed
line left by a partial write, which every reader skips with a warning. -/
inductive LogLine where
  | wellFormed (record : ConversionRecord)
  | corrupt (raw : String)
deriving DecidableEq

/-- Durable state owned by FileBasedConversionTracker: the primary store
(trackingFilePath, a JSON array of ConversionRecords) and the append-only
journal (appendLogPath, one serialized record per line). none models a
file that does not exist (readFile throws ENOENT). -/
structure TrackerFiles where
  mainFile : Option (List ConversionRecord)
  appendLog : Option (List LogLine)
deriving DecidableEq

/-- FileBasedConversionTracker.appendToLog (part_002 lines 144-157):
fs.appendFile writes one serialized record line at the end of the journal,
creating the file when absent. This is also the durable effect of
markAsConverted (lines 109-137) before any flush or compaction: the
in-memory set and write queue do not survive a crash. -/
def appendToLog (files : TrackerFiles) (record : ConversionRecord) : TrackerFiles :=
  { files with
    appendLog := some ((files.appendLog.getD []) ++ [LogLine.wellFormed record]) }

/-- Source keys contributed by the journal on load
(FileBasedConversionTracker.loadFromAppendLog, part_002 lines 79-102):
each line is parsed and its sourceKey added; malformed lines are skipped
with a warning. -/
def appendLogKeys (lines : List LogLine) : List String :=
  lines.filterMap (fun l =>
    match l with
    | .wellFormed r => some r.sourceKey
    | .corrupt _ => none)

/-- Membership set after a fresh FileBasedConversionTracker.loadConvertedKeys
(part_002 lines 35-102): keys of the primary store's records
(loadFromMainFile) followed by keys recovered from the journal
(loadFromAppendLog); a missing file contributes nothing. -/
def loadConvertedKeys (files : TrackerFiles) : List String :=
  (files.mainFile.getD []).map ConversionRecord.sourceKey ++
    appendLogKeys (files.appendLog.getD [])

/-- FileBasedConversionTracker.isConverted (part_002 lines 104-107) on a
freshly loaded tracker: membership of the source key in the loaded set. -/
def isConverted (files : TrackerFiles) (sourceKey : String) : Bool :=
  (loadConvertedKeys files).contains sourceKey

/-- Accumulator of the dedup-by-sourceKey pass inside consolidateFiles:
allRecords plus the seenKeys set. -/
structure DedupeAcc where
  recs : List ConversionRecord
  seen : List String

/-- One step of the dedup pass (part_002 lines 216-221 and 230-240): a
record whose sourceKey was already seen is dropped; otherwise it is pushed
and its key added to seenKeys. -/
def dedupeStep (acc : DedupeAcc) (record : ConversionRecord) : DedupeAcc :=
  if acc.seen.contains record.sourceKey then acc
  else { recs := acc.recs ++ [record], seen := acc.seen ++ [record.sourceKey] }

/-- FileBasedConversionTracker.consolidateFiles (part_002 lines 206-262):
when the journal file exists, read the primary store's records (missing
file contributes nothing), dedup them by sourceKey, then fold the
journal's parseable lines through the same dedup (malformed lines skipped),
write the result as the new primary store and truncate the journal to
empty. When the journal file is missing, readFile throws, the catch only
logs, and nothing changes. -/
def consolidateFiles (files : TrackerFiles) : TrackerFiles :=
  match files.appendLog with
  | none => files
  | some lines =>
    let fromMain := (files.mainFile.getD []).foldl dedupeStep ⟨[], []⟩
    let allRecords := lines.foldl
      (fun acc l =>
        match l with
        | .wellFormed r => dedupeStep acc r
        | .corrupt _ => acc)
      fromMain
    { mainFile := some allRecords.recs, appendLog := some [] }

/-- Source keys of a record list, used to state dedup and loss-freedom. -/
def keysOfRecords (records : List ConversionRecord) : List String :=
  records.map ConversionRecord.sourceKey

theorem lastDotIndex_eq_none_iff (cs : List Char) :
    lastDotIndex cs = none ↔ '.' ∉ cs := by
  induction cs with
  | nil => simp [lastDotIndex]
  | cons c cs ih =>
    simp only [lastDotIndex, List.mem_cons]
    cases h : lastDotIndex cs with
    | some i =>
      have hmem : '.' ∈ cs := by
        by_contra hnot
        rw [ih.mpr hnot] at h
        exact Option.noConfusion h
      simp [hmem]
    | none =>
      by_cases hc : c = '.'
      · simp [hc]
      · simp [hc, ih.mp h, eq_comm]

theorem lastDotIndex_some_decomp (cs : List Char) (i : Nat)
    (h : lastDotIndex cs = some i) :
    cs.take i ++ '.' :: cs.drop (i + 1) = cs ∧ '.' ∉ cs.drop (i + 1) := by
  induction cs generalizing i with
  | nil => simp [lastDotIndex] at h
  | cons c cs ih =>
    simp only [lastDotIndex] at h
    cases hrest : lastDotIndex cs with
    | some j =>
      rw [hrest] at h
      obtain rfl : j + 1 = i := by simpa using h
      obtain ⟨h1, h2⟩ := ih j hrest
      constructor
      · simpa [List.take_succ_cons, List.drop_succ_cons] using congrArg (c :: ·) h1
      · simpa [List.drop_succ_cons] using h2
    | none =>
      rw [hrest] at h
      by_cases hc : c = '.'
      · rw [if_pos hc] at h
        obtain rfl : (0 : Nat) = i := by simpa using h
        refine ⟨by simp [hc], ?_⟩
        simpa using (lastDotIndex_eq_none_iff cs).mp hrest
      · rw [if_neg hc] at h
        exact Option.noConfusion h

/-- C8: for every source key, generateTargetKey yields the key with the
substring from its last '.' onward replaced by ".webp" when a '.' occurs
(the suffix after the last dot is dropped and no dot remains in the
dropped part), and the key with ".webp" appended when no '.' occurs; in
particular "a/b/photo.JPG" maps to "a/b/photo.webp" and "noext" maps to
"noext.webp". -/
theorem generateTargetKey_spec :
    (∀ s : String, '.' ∉ s.data → generateTargetKey s = s ++ ".webp") ∧
    (∀ s : String, '.' ∈ s.data → ∃ pre post : List Char,
        s.data = pre ++ '.' :: post ∧ '.' ∉ post ∧
        generateTargetKey s = String.mk pre ++ ".webp") ∧
    generateTargetKey "a/b/photo.JPG" = "a/b/photo.webp" ∧
    generateTargetKey "noext" = "noext.webp" := by
  refine ⟨?_, ?_, by decide, by decide⟩
  · intro s hs
    unfold generateTargetKey
    rw [(lastDotIndex_eq_none_iff s.data).mpr hs]
  · intro s hs
    cases h : lastDotIndex s.data with
    | none => exact absurd ((lastDotIndex_eq_none_iff s.data).mp h) (by simp [hs])
    | some i =>
      obtain ⟨h1, h2⟩ := lastDotIndex_some_decomp s.data i h
      refine ⟨s.data.take i, s.data.drop (i + 1), h1.symm, h2, ?_⟩
      unfold generateTargetKey
      rw [h]

/-- Witness for generateTargetKey_spec: its universally quantified parts
instantiated at concrete keys, hypotheses discharged by evaluation. -/
theorem generateTargetKey_spec_witness :
    generateTargetKey "noext" = "noext" ++ ".webp" :=
  generateTargetKey_spec.1 "noext" (by decide)

/-- C5: after markAsConverted(R) has durably appended R to the journal and
before any flush or compaction runs, a fresh tracker loading from the
primary store and the journal alone reports isConverted(R.sourceKey). -/
theorem isConverted_after_append_before_flush (files : TrackerFiles)
    (r : ConversionRecord) :
    isConverted (appendToLog files r) r.sourceKey = true := by
  simp [isConverted, loadConvertedKeys, appendToLog, appendLogKeys,
    List.filterMap_append]

/-- C9: when the listing of objects fails before any pipeline starts,
processAllImages swallows the exception and returns a report whose
successful, failed, skipped, totalSizeBefore and totalSizeAfter are all
zero and whose error list is exactly one entry describing the listing
failure. -/
theorem listing_failure_yields_zero_report_one_error (msg : String)
    (outcome : S3Object → Except String ConversionResult) :
    (processAllImages (.error msg) outcome).successful = 0 ∧
    (processAllImages (.error msg) outcome).failed = 0 ∧
    (processAllImages (.error msg) outcome).skipped = 0 ∧
    (processAllImages (.error msg) outcome).totalSizeBefore = 0 ∧
    (processAllImages (.error msg) outcome).totalSizeAfter = 0 ∧
    (processAllImages (.error msg) outcome).errors
      = ["Batch conversion failed: " ++ msg] :=
  ⟨rfl, rfl, rfl, rfl, rfl, rfl⟩

theorem processImageWithTracking_totalImages (report : ConversionReport)
    (image : S3Object) (outcome : Except String ConversionResult) :
    (processImageWithTracking report image outcome).totalImages
      = report.totalImages := by
  unfold processImageWithTracking
  cases outcome with
  | error e => rfl
  | ok r => rcases hr : r.status <;> simp [hr]

theorem processConcurrentBatches_totalImages (images : List S3Object)
    (outcome : S3Object → Except String ConversionResult)
    (report : ConversionReport) :
    (processConcurrentBatches images outcome report).totalImages
      = report.totalImages := by
  induction images generalizing report with
  | nil => rfl
  | cons img rest ih =>
    simp only [processConcurrentBatches, List.foldl_cons] at ih ⊢
    rw [ih, processImageWithTracking_totalImages]

/-- C10: for every listing outcome and every per-item behaviour, the report
returned by processAllImages has totalImages = 0 — the field is
initialized to zero and no code path assigns it. -/
theorem totalImages_always_zero (listing : Except String (List S3Object))
    (outcome : S3Object → Except String ConversionResult) :
    (processAllImages listing outcome).totalImages = 0 := by
  cases listing with
  | error e => rfl
  | ok images =>
    unfold processAllImages
    by_cases h : images.length = 0
    · simp [h, emptyReport]
    · simp only [h, if_false]
      have hfold := processConcurrentBatches_totalImages images outcome emptyReport
      split
      · simpa [emptyReport] using hfold
      · simpa [emptyReport] using hfold

/-- Ten source objects with pairwise-distinct keys whose pipelines are
imagined blocked, the scenario of the spec's concurrency-bound test with
concurrencyLimit = 3. -/
def blockedTenObjects : List S3Object :=
  [⟨"k0.jpg", 1, "", ""⟩, ⟨"k1.jpg", 1, "", ""⟩, ⟨"k2.jpg", 1, "", ""⟩,
   ⟨"k3.jpg", 1, "", ""⟩, ⟨"k4.jpg", 1, "", ""⟩, ⟨"k5.jpg", 1, "", ""⟩,
   ⟨"k6.jpg", 1, "", ""⟩, ⟨"k7.jpg", 1, "", ""⟩, ⟨"k8.jpg", 1, "", ""⟩,
   ⟨"k9.jpg", 1, "", ""⟩]

/-- C1 (code bug evaluation): the dispatch loop of processConcurrentBatches
registers every pending object as in-flight before the loop exits — the
in-flight count after dispatch equals the whole input length for any
input, and on the spec's scenario of 10 blocked pipelines with
concurrencyLimit 3 the in-flight count reaches 10, exceeding 3. The loop
condition (convertionService.ts line 126) checks only the pending queue
and never consults config.processing.concurrency. -/
theorem scheduler_dispatch_ignores_concurrency_limit :
    (∀ (pendingQueue : List S3Object) (inFlight : List String),
        (startPendingTasks pendingQueue inFlight).length
          = inFlight.length + pendingQueue.length) ∧
    (startPendingTasks blockedTenObjects []).length = 10 ∧
    3 < (startPendingTasks blockedTenObjects []).length := by
  refine ⟨?_, by decide, by decide⟩
  intro pendingQueue inFlight
  induction pendingQueue generalizing inFlight with
  | nil => simp [startPendingTasks]
  | cons img rest ih =>
    simp only [startPendingTasks, ih, List.length_append, List.length_cons,
      List.length_nil]
    omega

/-- Default conversion.supportedFormats from config (src/config/index.ts
line 217: "jpeg,jpg,png" split on commas) — "webp" is not among them. -/
def defaultSupportedFormats : List String := ["jpeg", "jpg", "png"]

/-- Source object of the idempotence scenario. -/
def demoSourceObject : S3Object := ⟨"a/photo.jpg", 1000, "2024-01-01", "etag1"⟩

/-- Target object present in the bucket after the first run's upload of
120 bytes to "a/photo.webp". -/
def demoUploadedTarget : S3Object := ⟨"a/photo.webp", 120, "2024-01-02", "etag2"⟩

/-- First-run environment: the bucket holds only the source object, the
collaborators succeed (download 1000 bytes, valid format, encode to 120
bytes, upload ok), dry-run disabled, default supported formats. -/
def firstRunEnv : PipelineEnv :=
  { bucket := [demoSourceObject], supportedFormats := defaultSupportedFormats,
    download := .ok 1000, valid := true, metadata := .ok "jpeg",
    encode := .ok 120, upload := .ok (), dryRun := false }

/-- Second-run environment: identical except the bucket now also holds the
target object the first run uploaded. -/
def secondRunEnv : PipelineEnv :=
  { firstRunEnv with bucket := [demoSourceObject, demoUploadedTarget] }

/-- C2 (code bug evaluation): under the default supported formats the
first run succeeds and uploads the target, yet the second run on the same
source object — with the uploaded target present in the bucket — again
returns status success, downloading and uploading again instead of
skipping: skipIfExists lists the bucket through listImages, whose
isImageFile filter drops the ".webp" target because "webp" is not a
configured supported format, so the exact-key existence check never sees
it. -/
theorem second_run_not_skipped_under_default_formats :
    (processImage firstRunEnv demoSourceObject).result.status
      = ConversionStatus.success ∧
    (processImage firstRunEnv demoSourceObject).uploads = [("a/photo.webp", 120)] ∧
    (processImage secondRunEnv demoSourceObject).result.status
      = ConversionStatus.success ∧
    (processImage secondRunEnv demoSourceObject).downloads = ["a/photo.jpg"] ∧
    (processImage secondRunEnv demoSourceObject).uploads
      = [("a/photo.webp", 120)] := by
  refine ⟨rfl, rfl, rfl, rfl, rfl⟩

/-- C4 (code bug evaluation): no branch of processImage hands a
ConversionRecord to the ledger — the recorded markAsConverted invocations
of a run are empty for every environment and object, dry-run or not,
successful or not; in particular a successful non-dry-run conversion is
never recorded. -/
theorem processImage_never_calls_markAsConverted (env : PipelineEnv)
    (obj : S3Object) :
    (processImage env obj).ledgerCalls = [] := by
  simp only [processImage]
  repeat' split
  all_goals rfl

/-- Object and environment of the compression-ratio scenario:
originalSize 1000, encoded size 1200 (the conversion enlarged the file),
no skip, all collaborators succeed. -/
def ratioDemoObject : S3Object := ⟨"img/big.png", 1000, "", ""⟩

/-- Environment for the compression-ratio scenario. -/
def ratioDemoEnv : PipelineEnv :=
  { bucket := [], supportedFormats := defaultSupportedFormats,
    download := .ok 1000, valid := true, metadata := .ok "png",
    encode := .ok 1200, upload := .ok (), dryRun := false }

/-- C7: every pipeline run that reaches the encode step with positive
originalSize yields compressionRatio = (originalSize - convertedSize) /
originalSize exactly, whatever the later dry-run or upload branch does —
negative values are preserved, never clamped; and on originalSize 1000,
convertedSize 1200 the pipeline's result carries exactly -0.2. -/
theorem compressionRatio_exact_not_clamped :
    (∀ (env : PipelineEnv) (obj : S3Object) (n c : Nat) (f : String),
        skipIfExists env.bucket env.supportedFormats (generateTargetKey obj.key)
          = false →
        env.download = .ok n → env.valid = true → env.metadata = .ok f →
        env.encode = .ok c → 0 < obj.size →
        (processImage env obj).result.compressionRatio
          = ((obj.size : ℚ) - (c : ℚ)) / (obj.size : ℚ)) ∧
    (processImage ratioDemoEnv ratioDemoObject).result.compressionRatio
      = -0.2 := by
  constructor
  · intro env obj n c f hskip hdl hv hmd henc _
    simp only [processImage, hskip, hdl, hv, hmd, henc, Bool.not_true,
      Bool.false_eq_true, if_false]
    split
    · rfl
    · split <;> rfl
  · show ((1000 : ℚ) - (1200 : ℚ)) / (1000 : ℚ) = -0.2
    norm_num

/-- Witness for compressionRatio_exact_not_clamped: its universally
quantified part applied to the concrete 1000/1200 scenario, all
hypotheses discharged by evaluation. -/
theorem compressionRatio_exact_not_clamped_witness :
    (processImage ratioDemoEnv ratioDemoObject).result.compressionRatio
      = ((1000 : ℚ) - (1200 : ℚ)) / (1000 : ℚ) :=
  compressionRatio_exact_not_clamped.1 ratioDemoEnv ratioDemoObject 1000 1200 "png"
    (by decide) rfl rfl rfl rfl (by decide)

theorem processImageWithTracking_counts (report : ConversionReport)
    (image : S3Object) (outcome : Except String ConversionResult) :
    (processImageWithTracking report image outcome).successful
      + (processImageWithTracking report image outcome).failed
      + (processImageWithTracking report image outcome).skipped
      = report.successful + report.failed + report.skipped + 1 := by
  unfold processImageWithTracking
  cases outcome with
  | error e => simp only []; omega
  | ok r => rcases hr : r.status <;> simp only [hr] <;> omega

theorem processConcurrentBatches_counts (images : List S3Object)
    (outcome : S3Object → Except String ConversionResult)
    (report : ConversionReport) :
    (processConcurrentBatches images outcome report).successful
      + (processConcurrentBatches images outcome report).failed
      + (processConcurrentBatches images outcome report).skipped
      = report.successful + report.failed + report.skipped + images.length := by
  induction images generalizing report with
  | nil => simp [processConcurrentBatches]
  | cons img rest ih =>
    simp only [processConcurrentBatches, List.foldl_cons, List.length_cons] at ih ⊢
    rw [ih, processImageWithTracking_counts]
    omega

/-- C3: whenever the listing succeeds (no batch-level abort), the report
returned by processAllImages satisfies successful + failed + skipped =
number of listed objects — each dequeued object increments exactly one of
the three counters exactly once, whatever its pipeline outcome. The
distinct-keys hypothesis records the faithfulness boundary of the fold
model: a bucket listing never repeats a key, and the scheduler's in-flight
map is keyed by sourceKey. -/
theorem report_counts_sum_to_input_length (images : List S3Object)
    (outcome : S3Object → Except String ConversionResult)
    (_hkeys : (images.map S3Object.key).Nodup) :
    (processAllImages (.ok images) outcome).successful
      + (processAllImages (.ok images) outcome).failed
      + (processAllImages (.ok images) outcome).skipped = images.length := by
  unfold processAllImages
  by_cases h : images.length = 0
  · simp [h, emptyReport]
  · simp only [h, if_false]
    have hfold := processConcurrentBatches_counts images outcome emptyReport
    split
    · simpa [emptyReport] using hfold
    · simpa [emptyReport] using hfold

/-- Input object for the counts-sum witness. -/
def countsWitnessObject : S3Object := ⟨"w/one.jpg", 7, "", ""⟩

/-- Per-item behaviour for the counts-sum witness: the pipeline throws. -/
def countsWitnessOutcome : S3Object → Except String ConversionResult :=
  fun o => .error ("boom " ++ o.key)

/-- Witness for report_counts_sum_to_input_length: one listed object with
a throwing pipeline still yields counters summing to 1. -/
theorem report_counts_sum_to_input_length_witness :
    (processAllImages (.ok [countsWitnessObject]) countsWitnessOutcome).successful
      + (processAllImages (.ok [countsWitnessObject]) countsWitnessOutcome).failed
      + (processAllImages (.ok [countsWitnessObject]) countsWitnessOutcome).skipped
      = 1 :=
  report_counts_sum_to_input_length [countsWitnessObject] countsWitnessOutcome
    (by decide)

theorem dedupeStep_seen (acc : DedupeAcc) (q : ConversionRecord) (k : String) :
    k ∈ (dedupeStep acc q).seen ↔ k ∈ acc.seen ∨ k = q.sourceKey := by
  unfold dedupeStep
  split
  · rename_i h
    have hmem : q.sourceKey ∈ acc.seen := by simpa using h
    constructor
    · exact fun hk => Or.inl hk
    · rintro (hk | rfl)
      · exact hk
      · exact hmem
  · simp

theorem dedupeStep_recs_subset (acc : DedupeAcc) (q r : ConversionRecord)
    (h : r ∈ (dedupeStep acc q).recs) : r ∈ acc.recs ∨ r = q := by
  unfold dedupeStep at h
  split at h
  · exact Or.inl h
  · simpa using h

/-- Invariant of the dedup pass: seenKeys is exactly the key set of the
accumulated records, which are pairwise distinct by sourceKey. -/
def DedupeInv (acc : DedupeAcc) : Prop :=
  (∀ k, k ∈ acc.seen ↔ k ∈ keysOfRecords acc.recs) ∧
    acc.recs.Pairwise (fun a b => a.sourceKey ≠ b.sourceKey)

theorem dedupeStep_inv (acc : DedupeAcc) (q : ConversionRecord)
    (h : DedupeInv acc) : DedupeInv (dedupeStep acc q) := by
  obtain ⟨hseen, hpw⟩ := h
  unfold dedupeStep
  split
  · exact ⟨hseen, hpw⟩
  · rename_i hnot
    have hq : q.sourceKey ∉ acc.seen := by simpa using hnot
    constructor
    · intro k
      simp only [keysOfRecords, List.map_append, List.map_cons, List.map_nil,
        List.mem_append, List.mem_cons, List.not_mem_nil, or_false]
      rw [← keysOfRecords, hseen k]
    · rw [List.pairwise_append]
      refine ⟨hpw, by simp, ?_⟩
      intro a ha b hb
      have hb' : b = q := by simpa using hb
      intro hcontra
      apply hq
      apply (hseen (ConversionRecord.sourceKey q)).mpr
      have hkey : ConversionRecord.sourceKey a = ConversionRecord.sourceKey q := by
        rw [← hb']
        exact hcontra
      exact hkey ▸ List.mem_map_of_mem ConversionRecord.sourceKey ha

theorem foldl_dedupeStep_seen (records : List ConversionRecord) (acc : DedupeAcc)
    (k : String) :
    k ∈ (records.foldl dedupeStep acc).seen
      ↔ k ∈ acc.seen ∨ k ∈ keysOfRecords records := by
  induction records generalizing acc with
  | nil => simp [keysOfRecords]
  | cons q qs ih =>
    simp only [List.foldl_cons, ih, dedupeStep_seen, keysOfRecords, List.map_cons,
      List.mem_cons]
    tauto

theorem foldl_dedupeStep_recs_subset (records : List ConversionRecord)
    (acc : DedupeAcc) (r : ConversionRecord)
    (h : r ∈ (records.foldl dedupeStep acc).recs) : r ∈ acc.recs ∨ r ∈ records := by
  induction records generalizing acc with
  | nil => exact Or.inl h
  | cons q qs ih =>
    rcases ih (dedupeStep acc q) h with h1 | h2
    · rcases dedupeStep_recs_subset acc q r h1 with h3 | h4
      · exact Or.inl h3
      · exact Or.inr (by simp [h4])
    · exact Or.inr (List.mem_cons_of_mem q h2)

theorem foldl_dedupeStep_inv (records : List ConversionRecord) (acc : DedupeAcc)
    (h : DedupeInv acc) : DedupeInv (records.foldl dedupeStep acc) := by
  induction records generalizing acc with
  | nil => exact h
  | cons q qs ih => exact ih _ (dedupeStep_inv acc q h)

/-- C6: consolidating a well-formed primary store with a well-formed
journal truncates the journal to empty and produces a primary store whose
key set is exactly the union of the two prior key sets, whose every record
comes from one of the two prior files, and whose records are deduplicated
by sourceKey — no record present before consolidation is lost. -/
theorem consolidateFiles_loss_free (files : TrackerFiles)
    (ms ls : List ConversionRecord)
    (hm : files.mainFile = some ms)
    (hl : files.appendLog = some (ls.map LogLine.wellFormed)) :
    (consolidateFiles files).appendLog = some [] ∧
    ∃ nm : List ConversionRecord,
      (consolidateFiles files).mainFile = some nm ∧
      (∀ k, k ∈ keysOfRecords nm ↔ k ∈ keysOfRecords ms ∨ k ∈ keysOfRecords ls) ∧
      (∀ r ∈ nm, r ∈ ms ∨ r ∈ ls) ∧
      nm.Pairwise (fun a b => a.sourceKey ≠ b.sourceKey) := by
  have hlog :
      (ls.map LogLine.wellFormed).foldl
        (fun acc l =>
          match l with
          | .wellFormed r => dedupeStep acc r
          | .corrupt _ => acc)
        (ms.foldl dedupeStep ⟨[], []⟩)
        = ls.foldl dedupeStep (ms.foldl dedupeStep ⟨[], []⟩) := by
    rw [List.foldl_map]
  have hinv : DedupeInv (ls.foldl dedupeStep (ms.foldl dedupeStep ⟨[], []⟩)) :=
    foldl_dedupeStep_inv ls _ (foldl_dedupeStep_inv ms ⟨[], []⟩
      ⟨by simp [keysOfRecords], by simp⟩)
  unfold consolidateFiles
  rw [hl, hm]
  simp only [Option.getD_some, hlog, true_and]
  refine ⟨(ls.foldl dedupeStep (ms.foldl dedupeStep ⟨[], []⟩)).recs, rfl,
    ?_, ?_, hinv.2⟩
  · intro k
    rw [← hinv.1 k, foldl_dedupeStep_seen, foldl_dedupeStep_seen]
    simp
  · intro r hr
    rcases foldl_dedupeStep_recs_subset ls _ r hr with h1 | h2
    · rcases foldl_dedupeStep_recs_subset ms _ r h1 with h3 | h4
      · simp at h3
      · exact Or.inl h4
    · exact Or.inr h2

/-- Record already in the primary store for the consolidation witness. -/
def consolidateWitnessRecordA : ConversionRecord :=
  ⟨"a.jpg", "a.webp", "2024-01-01T00:00:00Z", 1000, 800, 1 / 5⟩

/-- Record only in the journal for the consolidation witness. -/
def consolidateWitnessRecordB : ConversionRecord :=
  ⟨"b.jpg", "b.webp", "2024-01-02T00:00:00Z", 500, 600, -(1 / 5)⟩

/-- Durable state for the consolidation witness: the primary store holds
record A; the journal holds A again (already compacted once) plus B. -/
def consolidateWitnessFiles : TrackerFiles :=
  { mainFile := some [consolidateWitnessRecordA],
    appendLog := some ([consolidateWitnessRecordA,
      consolidateWitnessRecordB].map LogLine.wellFormed) }

/-- Witness for consolidateFiles_loss_free at a concrete primary store and
journal, both hypotheses discharged by rfl. -/
theorem consolidateFiles_loss_free_witness :
    (consolidateFiles consolidateWitnessFiles).appendLog = some [] ∧
    ∃ nm : List ConversionRecord,
      (consolidateFiles consolidateWitnessFiles).mainFile = some nm ∧
      (∀ k, k ∈ keysOfRecords nm
        ↔ k ∈ keysOfRecords [consolidateWitnessRecordA]
          ∨ k ∈ keysOfRecords [consolidateWitnessRecordA,
              consolidateWitnessRecordB]) ∧
      (∀ r ∈ nm, r ∈ [consolidateWitnessRecordA]
        ∨ r ∈ [consolidateWitnessRecordA, consolidateWitnessRecordB]) ∧
      nm.Pairwise (fun a b => a.sourceKey ≠ b.sourceKey) :=
  consolidateFiles_loss_free consolidateWitnessFiles
    [consolidateWitnessRecordA]
    [consolidateWitnessRecordA, consolidateWitnessRecordB] rfl rfl

end WebpConverter
